import Mathlib

/-!
Verification of the txjason repository: netstring framing, JSON-RPC server
dispatch output, and the client connection manager's state machine.

Bytes are modelled as `List Char` (the code is Python 2, where `str` is a byte
string and each element is a single character).
-/

set_option maxHeartbeats 1000000
set_option maxRecDepth 10000
set_option linter.unnecessarySeqFocus false

namespace Txjason

/-! ## Netstring codec (from `readNetstring`/`makeNetstring` in
`src/txjason/tests/test_netstring.py`) -/

/-- Python's `str.partition(sep)` for a single-character separator: returns the
part before the first occurrence, whether the separator was found, and the part
after it.  (From `str.partition` as used in `readNetstring`,
`src/txjason/tests/test_netstring.py`.) -/
def pyPartition (s : List Char) (c : Char) : List Char × Bool × List Char :=
  match s with
  | [] => ([], false, [])
  | x :: xs =>
      if x = c then ([], true, xs)
      else
        let r := pyPartition xs c
        (x :: r.1, r.2.1, r.2.2)

/-- ASCII decimal digit test (codes 48..57). -/
def isDigit (c : Char) : Bool :=
  decide (48 ≤ c.toNat) && decide (c.toNat ≤ 57)

/-- Python whitespace stripped by `int()`: space, tab, LF, VT, FF, CR. -/
def isPySpace (c : Char) : Bool :=
  decide (c.toNat = 32) || decide (c.toNat = 9) || decide (c.toNat = 10) ||
    decide (c.toNat = 11) || decide (c.toNat = 12) || decide (c.toNat = 13)

/-- Value of a digit string, most significant digit first. -/
def digitsVal (l : List Char) : Nat :=
  l.foldl (fun a c => 10 * a + (c.toNat - 48)) 0

/-- Strip leading and trailing Python whitespace (as `int()` does). -/
def pyStrip (s : List Char) : List Char :=
  (((s.dropWhile isPySpace).reverse.dropWhile isPySpace)).reverse

/-- Parse a nonempty all-digit string, else fail. -/
def digitsOnly (l : List Char) : Option Nat :=
  if l.isEmpty then none
  else if l.all isDigit then some (digitsVal l) else none

/-- Sign-and-digits parse on an already-stripped string. -/
def pyIntCore : List Char → Option Int
  | [] => none
  | c :: r =>
      if c = '-' then (digitsOnly r).map (fun n => -(n : Int))
      else if c = '+' then (digitsOnly r).map (fun n => (n : Int))
      else (digitsOnly (c :: r)).map (fun n => (n : Int))

/-- Python's `int(s)` on a byte string: strips whitespace, allows one optional
sign, then requires a nonempty run of decimal digits; raises (here: `none`)
otherwise.  (Embeds the builtin `int` used by `readNetstring`.) -/
def pyInt (s : List Char) : Option Int :=
  pyIntCore (pyStrip s)

/-- `readNetstring` from `src/txjason/tests/test_netstring.py`:
`prefix, sep, rest = string.partition(':')`; raise unless `sep` was found and
`len(rest) == int(prefix) + 1`; return `rest[:-1]`.  `none` models the raised
`ValueError` (including the one `int()` itself raises). -/
def readNetstring (s : List Char) : Option (List Char) :=
  let r := pyPartition s ':'
  if r.2.1 = false then none
  else
    match pyInt r.1 with
    | none => none
    | some n =>
        if (r.2.2.length : Int) = n + 1 then some r.2.2.dropLast else none

/-- Decimal rendering of a natural number, fuel-indexed so that it is
structurally recursive (the fuel `n + 1` always suffices). -/
def natDecGo : Nat → Nat → List Char → List Char
  | 0, _, acc => acc
  | fuel + 1, n, acc =>
      if n < 10 then Nat.digitChar n :: acc
      else natDecGo fuel (n / 10) (Nat.digitChar (n % 10) :: acc)

/-- `str(n)` / `'%d' % n` for a natural number. -/
def natDecimal (n : Nat) : List Char := natDecGo (n + 1) n []

/-- `makeNetstring` from `src/txjason/tests/test_netstring.py`:
`'%d:%s,' % (len(string), string)`. -/
def makeNetstring (s : List Char) : List Char :=
  natDecimal s.length ++ ':' :: (s ++ [','])

/-- Fold a digit string onto an accumulator, as `digitsVal` does from `0`. -/
def digitsValFrom (a : Nat) (l : List Char) : Nat :=
  l.foldl (fun x c => 10 * x + (c.toNat - 48)) a

/-! ## Server side: dispatch and reply serialization.

`txjason/service.py`, `txjason/handler.py` and the netstring server protocol of
`txjason/netstring.py` are not present under `src/`; they are modelled from the
spec (sections 4.2-4.4), with the exact reply byte layout fixed by the
assertions of `src/txjason/tests/test_netstring.py` and the write-only-when-not-None
behaviour taken from `JSONRPCServerProtocol.dataReceived` in
`src/txjason/protocol.py`. -/

/-- Left brace character (ASCII 123). -/
def lbrace : Char := '\x7b'

/-- Right brace character (ASCII 125). -/
def rbrace : Char := '\x7d'

/-- Scalar JSON value; numbers and strings are all these replies need. -/
inductive JVal
  | jnum (n : Int)
  | jstr (s : List Char)
deriving DecidableEq

/-- Inbound JSON-RPC message after envelope parsing: a request carries an id, a
notification does not (the presence of `id` is the only distinction). -/
inductive Message
  | request (id : JVal) (method : List Char) (params : List JVal)
  | notification (method : List Char) (params : List JVal)
deriving DecidableEq

/-- Outbound reply envelope: a success result or an error with code/message. -/
inductive Reply
  | result (id : JVal) (v : JVal)
  | rpcError (id : JVal) (code : Int) (msg : List Char)
deriving DecidableEq

/-- A handler takes the params list; `none` models a raised handler exception. -/
abbrev Handler := List JVal → Option JVal

/-- The name→handler mapping, built before serving starts. -/
abbrev Registry := List (List Char × Handler)

/-- Look up a handler by fully-qualified method name. -/
def lookupHandler (m : List Char) : Registry → Option Handler
  | [] => none
  | e :: r => if e.1 = m then some e.2 else lookupHandler m r

/-- Modelled from the spec: `register(name, handler, namespace?)` (section 4.3)
inserts under `namespace + separator + name` when a namespace is given
(`txjason/handler.py` is absent from `src/`); `BaseServerFactory` in
`src/txjason/protocol.py` supplies the separator, defaulting to `'.'`. -/
def registerHandler (reg : Registry) (name : List Char) (h : Handler)
    (ns : Option (List Char)) (sep : Char) : Registry :=
  match ns with
  | none => reg ++ [(name, h)]
  | some n => reg ++ [(n ++ sep :: name, h)]

def msgMethodNotFound : List Char := ("Method not found").toList

def msgInternalError : List Char := ("Internal error").toList

/-- Modelled from the spec: `Dispatcher.dispatch` (section 4.3;
`txjason/service.py` is absent from `src/`).  Request: a missing handler yields
the -32601 Method-not-found error reply; handler success yields a result reply;
handler failure yields a -32603 error reply.  Notification: always `none`,
regardless of the invocation's outcome. -/
def dispatch (reg : Registry) : Message → Option Reply
  | .request rid m ps =>
      match lookupHandler m reg with
      | none => some (.rpcError rid (-32601) msgMethodNotFound)
      | some h =>
          match h ps with
          | some v => some (.result rid v)
          | none => some (.rpcError rid (-32603) msgInternalError)
  | .notification _ _ => none

/-- `str(i)` for an integer (`json.dumps` renders ints this way). -/
def intDecimal (i : Int) : List Char :=
  if i < 0 then '-' :: natDecimal i.natAbs else natDecimal i.natAbs

/-- JSON string-content escaping (quote and backslash; the strings these claims
exercise contain no other escapable characters). -/
def jescape : List Char → List Char
  | [] => []
  | c :: r =>
      (if c = '"' then ['\\', '"'] else if c = '\\' then ['\\', '\\'] else [c]) ++ jescape r

/-- A JSON string literal: quoted, escaped content. -/
def jquote (s : List Char) : List Char := '"' :: jescape s ++ ['"']

/-- Render a scalar JSON value. -/
def renderJVal : JVal → List Char
  | .jnum i => intDecimal i
  | .jstr s => jquote s

def keyJsonrpc : List Char := ("jsonrpc").toList

def keyResult : List Char := ("result").toList

def keyId : List Char := ("id").toList

def keyError : List Char := ("error").toList

def keyMessage : List Char := ("message").toList

def keyCode : List Char := ("code").toList

def ver20 : List Char := ("2.0").toList

/-- One `"key": value` member of a JSON object, `json.dumps` default separators. -/
def jmember (k : List Char) (v : List Char) : List Char :=
  jquote k ++ ':' :: ' ' :: v

/-- Modelled from the spec: `MessageModel.serialize` for replies (section 4.2;
`txjason/service.py` is absent from `src/`).  Field order and the
`", "`/`": "` separators are fixed by the byte-exact assertions in
`src/txjason/tests/test_netstring.py`: a result reply is
`jsonrpc, result, id`; an error reply is `jsonrpc, id, error` with the error
object holding `message, code`. -/
def serializeReply : Reply → List Char
  | .result rid v =>
      lbrace :: (jmember keyJsonrpc (jquote ver20) ++ ',' :: ' ' ::
        jmember keyResult (renderJVal v) ++ ',' :: ' ' ::
        jmember keyId (renderJVal rid)) ++ [rbrace]
  | .rpcError rid code msg =>
      lbrace :: (jmember keyJsonrpc (jquote ver20) ++ ',' :: ' ' ::
        jmember keyId (renderJVal rid) ++ ',' :: ' ' ::
        jmember keyError (lbrace ::
          (jmember keyMessage (jquote msg) ++ ',' :: ' ' ::
           jmember keyCode (intDecimal code)) ++ [rbrace])) ++ [rbrace]

/-- The server session's output for one decoded inbound message: dispatch, and
write the framed serialized reply only when dispatch produced one
(`JSONRPCServerProtocol.dataReceived` in `src/txjason/protocol.py` writes only
when the service result is not `None`; the netstring framing of the reply is
modelled from the spec, section 4.4). -/
def sessionOutput (reg : Registry) (msg : Message) : List Char :=
  match dispatch reg msg with
  | none => []
  | some rep => makeNetstring (serializeReply rep)

/-- The `add(x, y) = x + y` handler of the test fixture
(`TestHandler.add` in `src/txjason/tests/test_netstring.py`). -/
def addHandler : Handler := fun ps =>
  match ps with
  | [.jnum x, .jnum y] => some (.jnum (x + y))
  | _ => none

/-- The test fixture's registry: `add` registered under namespace `foo` with
the default `'.'` separator, giving qualified name `foo.add`. -/
def fooRegistry : Registry :=
  registerHandler [] (("add").toList) addHandler (some (("foo").toList)) '.'

def expectedAddReply : String :=
  "42:\x7b\"jsonrpc\": \"2.0\", \"result\": 3, \"id\": \"X\"\x7d,"

def expectedMethodNotFoundReply : String :=
  "87:\x7b\"jsonrpc\": \"2.0\", \"id\": \"X\", \"error\": \x7b\"message\": \"Method not found\", \"code\": -32601\x7d\x7d,"

/-! ## Client side: the connection manager's state machine.

`txjason/netstring.py` (`JSONRPCClientFactory`) and `txjason/client.py` are not
present under `src/`.  The manager is modelled from the spec (sections 3 and
4.5): lazy shared connection establishment, an id counter starting at 1 that
only calls consume, a pending-call table, cancellation, and reconnection.  One
deliberate deviation from the spec's wording is pinned down by the tests in
`src/txjason/tests/test_netstring.py`: a failed connect attempt is reported to
the observability sink once per failed *attempt*, not once per waiter
(`test_notifyRemote_two_pending_connection_failures` asserts exactly one logged
error for two waiters sharing one pending attempt, while
`test_notifyRemote_two_connection_failures` asserts two logged errors for two
synchronously-failing, hence separate, attempts). -/

/-- Terminal (or not-yet-terminal) status of a caller's result handle. -/
inductive Outcome
  | pending
  | succeeded
  | connError
  | cancelled
deriving DecidableEq

/-- A wire frame written by the client: requests carry the allocated id,
notifications carry none. -/
inductive Frame
  | request (rid : Nat) (method : List Char) (params : List Int)
  | notification (method : List Char) (params : List Int)
deriving DecidableEq

/-- Is the frame a notification (no response expected)? -/
def isNotificationFrame : Frame → Bool
  | .request _ _ _ => false
  | .notification _ _ => true

/-- Connection state: `connecting` holds the handle indices attached to the
single shared in-flight attempt; `connected` holds the connection generation. -/
inductive ConnState
  | disconnected
  | connecting (waiters : List Nat)
  | connected (gen : Nat)
deriving DecidableEq

/-- How the endpoint's `connect` behaves for an attempt started now:
resolve synchronously, fail synchronously, or stay pending (resolved later by
an `attemptSucceeded`/`attemptFailed` event). -/
inductive EndpointMode
  | succeedNow
  | failNow
  | stayPending
deriving DecidableEq

/-- Events driving the manager: the public `call`/`notify` operations, the
shared connect attempt resolving, connection loss, cancellation of a handle,
and a correlated response arriving. -/
inductive Ev
  | callRemote (method : List Char) (params : List Int) (ep : EndpointMode)
  | notifyRemote (method : List Char) (params : List Int) (ep : EndpointMode)
  | attemptSucceeded
  | attemptFailed
  | connectionLost
  | cancel (h : Nat)
  | response (rid : Nat)
deriving DecidableEq

/-- Modelled from the spec: the `ClientConnectionManager` state (sections 3 and
4.5; `txjason/netstring.py` is absent from `src/`).  `handles` is indexed by
issue order; `pendingCalls` maps request id to handle; `queued` holds frames
waiting on the shared attempt; `attempts` counts connect attempts started;
`gens` is the next connection generation; `writes` tags each written frame with
the generation of the connection it was written on; `reports` counts
connection-error reports to the observability sink; `attemptCancelled` records
that cancellation was propagated to the underlying connect operation. -/
structure Client where
  conn : ConnState
  nextId : Nat
  callIds : List Nat
  handles : List Outcome
  pendingCalls : List (Nat × Nat)
  queued : List (Nat × Frame)
  attempts : Nat
  gens : Nat
  reports : Nat
  cancelReports : Nat
  writes : List (Nat × Frame)
  attemptCancelled : Bool
deriving DecidableEq

/-- The manager's initial state: disconnected, id counter at 1, nothing issued. -/
def initClient : Client :=
  { conn := .disconnected, nextId := 1, callIds := [], handles := [],
    pendingCalls := [], queued := [], attempts := 0, gens := 0, reports := 0,
    cancelReports := 0, writes := [], attemptCancelled := false }

/-- Write frame `f` for handle `h` on connection generation `g`: a
notification's handle resolves as soon as the write completes; a request's
handle keeps waiting for its response. -/
def sendOn (s : Client) (g : Nat) (h : Nat) (f : Frame) : Client :=
  { s with writes := s.writes ++ [(g, f)],
           handles := if isNotificationFrame f then s.handles.set h .succeeded
                      else s.handles }

/-- Mark every listed handle as failed with the connection error. -/
def failAll (hs : List Outcome) (ws : List Nat) : List Outcome :=
  ws.foldl (fun acc h => acc.set h .connError) hs

/-- Cancelling a handle that is past the connect stage: if its request is still
awaiting a response, remove the table entry and fail the handle locally with a
cancellation error (no wire traffic); otherwise cancelling is a no-op. -/
def cancelPending (s : Client) (h : Nat) : Client :=
  if s.pendingCalls.any (fun e => e.2 == h) then
    { s with handles := s.handles.set h .cancelled,
             pendingCalls := s.pendingCalls.filter (fun e => e.2 != h) }
  else s

/-- Modelled from the spec: `ensureConnection()` plus the frame send (section
4.5).  Connected: write immediately.  Connecting: attach to the single shared
attempt.  Disconnected: start exactly one new attempt; a synchronous success
connects (consuming a fresh generation) and writes; a synchronous failure
reports the error once and fails this caller's handle; otherwise the attempt
stays pending with this caller as sole waiter so far. -/
def connectAndSend (s : Client) (h : Nat) (f : Frame) (ep : EndpointMode) : Client :=
  match s.conn with
  | .connected g => sendOn s g h f
  | .connecting ws =>
      { s with conn := .connecting (ws ++ [h]), queued := s.queued ++ [(h, f)] }
  | .disconnected =>
      match ep with
      | .succeedNow =>
          sendOn { s with attempts := s.attempts + 1, gens := s.gens + 1,
                          conn := .connected s.gens } s.gens h f
      | .failNow =>
          { s with attempts := s.attempts + 1, reports := s.reports + 1,
                   handles := s.handles.set h .connError,
                   pendingCalls := s.pendingCalls.filter (fun e => e.2 != h) }
      | .stayPending =>
          { s with attempts := s.attempts + 1, conn := .connecting [h],
                   queued := [(h, f)] }

/-- Generation-tagged writes of all frames queued on a succeeding attempt. -/
def flushWrites (g : Nat) (q : List (Nat × Frame)) : List (Nat × Frame) :=
  q.map (fun p => (g, p.2))

/-- Resolve the handles of queued notifications once their frames are written. -/
def flushHandles (hs : List Outcome) (q : List (Nat × Frame)) : List Outcome :=
  q.foldl (fun acc p => if isNotificationFrame p.2 then acc.set p.1 .succeeded else acc) hs

/-- Modelled from the spec: one transition of the `ClientConnectionManager`
(sections 4.5 and 5; `txjason/netstring.py` and `txjason/client.py` are absent
from `src/`).  `callRemote` allocates the next id, registers a pending call and
ensures a connection; `notifyRemote` does the same without consuming an id.  A
shared attempt's success releases every waiter (each sending its own frame);
its failure fails every waiter's handle with the connection error and reports
the failure once per attempt (see the module comment above).  Connection loss
fails all outstanding pending calls and reconnects only lazily.  Cancelling a
waiter on the shared attempt fails its handle with a cancellation error and,
when it was the sole waiter, propagates cancellation to the underlying connect
operation.  A response is correlated by id; an unknown id is discarded. -/
def step (s : Client) : Ev → Client
  | .callRemote m ps ep =>
      connectAndSend
        { s with nextId := s.nextId + 1,
                 callIds := s.callIds ++ [s.nextId],
                 handles := s.handles ++ [.pending],
                 pendingCalls := s.pendingCalls ++ [(s.nextId, s.handles.length)] }
        s.handles.length (.request s.nextId m ps) ep
  | .notifyRemote m ps ep =>
      connectAndSend { s with handles := s.handles ++ [.pending] }
        s.handles.length (.notification m ps) ep
  | .attemptSucceeded =>
      match s.conn with
      | .connecting _ =>
          { s with conn := .connected s.gens, gens := s.gens + 1, queued := [],
                   writes := s.writes ++ flushWrites s.gens s.queued,
                   handles := flushHandles s.handles s.queued }
      | _ => s
  | .attemptFailed =>
      match s.conn with
      | .connecting ws =>
          { s with conn := .disconnected, queued := [],
                   handles := failAll s.handles ws,
                   pendingCalls := s.pendingCalls.filter (fun e => !(decide (e.2 ∈ ws))),
                   reports := s.reports + 1 }
      | _ => s
  | .connectionLost =>
      match s.conn with
      | .connected _ =>
          { s with conn := .disconnected,
                   handles := failAll s.handles (s.pendingCalls.map (fun e => e.2)),
                   pendingCalls := [],
                   reports := s.reports + 1 + s.pendingCalls.length }
      | _ => s
  | .cancel h =>
      match s.conn with
      | .connecting ws =>
          if h ∈ ws then
            { s with handles := s.handles.set h .cancelled,
                     queued := s.queued.filter (fun e => e.1 != h),
                     pendingCalls := s.pendingCalls.filter (fun e => e.2 != h),
                     cancelReports := s.cancelReports + 1,
                     conn := if (ws.filter (fun w => w != h)).isEmpty then .disconnected
                             else .connecting (ws.filter (fun w => w != h)),
                     attemptCancelled :=
                       s.attemptCancelled || (ws.filter (fun w => w != h)).isEmpty }
          else cancelPending s h
      | _ => cancelPending s h
  | .response rid =>
      match s.pendingCalls.find? (fun e => e.1 == rid) with
      | some e =>
          { s with handles := s.handles.set e.2 .succeeded,
                   pendingCalls := s.pendingCalls.filter (fun x => x.1 != rid) }
      | none => s

/-- Run the manager from its initial state over a list of events. -/
def runClient (evs : List Ev) : Client := evs.foldl step initClient

/-- Does the event issue a call (and hence consume an id)? -/
def isCall : Ev → Bool
  | .callRemote _ _ _ => true
  | _ => false

/-- Does the event issue a call or a notification? -/
def isIssue : Ev → Bool
  | .callRemote _ _ _ => true
  | .notifyRemote _ _ _ => true
  | _ => false

/-- Is the event a call or a notification issued while the connect attempt
stays pending (the concurrently-issued-before-any-connection scenario)? -/
def isPendingIssue : Ev → Bool
  | .callRemote _ _ ep => ep == EndpointMode.stayPending
  | .notifyRemote _ _ ep => ep == EndpointMode.stayPending
  | _ => false

/-- Number of calls in an event trace. -/
def countCalls (evs : List Ev) : Nat := evs.countP isCall

def spamName : List Char := ("spam").toList

/-- State after one notification over a synchronously-succeeding endpoint:
connected on generation 0. -/
def reconState : Client := runClient [Ev.notifyRemote spamName [] .succeedNow]

/-- State after one call issued while the connect attempt stays pending:
connecting, with handle 0 as sole waiter. -/
def cancelState : Client := runClient [Ev.callRemote spamName [] .stayPending]

/-! ## Theorems: netstring codec machinery -/

theorem digitsVal_eq_from (l : List Char) : digitsVal l = digitsValFrom 0 l := rfl

theorem digitsValFrom_append (a : Nat) (l₁ l₂ : List Char) :
    digitsValFrom a (l₁ ++ l₂) = digitsValFrom (digitsValFrom a l₁) l₂ := by
  simp [digitsValFrom, List.foldl_append]

theorem digitChar_isDigit {d : Nat} (h : d < 10) : isDigit (Nat.digitChar d) = true := by
  interval_cases d <;> decide

theorem digitChar_toNat {d : Nat} (h : d < 10) : (Nat.digitChar d).toNat = 48 + d := by
  interval_cases d <;> decide

/-- Core correctness of `natDecGo`: with sufficient fuel it prepends a nonempty
all-digit decimal representation of `n` to the accumulator. -/
theorem natDecGo_spec :
    ∀ (fuel n : Nat) (acc : List Char), n < fuel →
      ∃ ds : List Char,
        natDecGo fuel n acc = ds ++ acc ∧ ds ≠ [] ∧
        (∀ c ∈ ds, isDigit c = true) ∧
        (∀ a : Nat, digitsValFrom a ds = a * 10 ^ ds.length + n) := by
  intro fuel
  induction fuel with
  | zero => intro n acc h; omega
  | succ f ih =>
    intro n acc h
    by_cases hn : n < 10
    · refine ⟨[Nat.digitChar n], ?_, by simp, ?_, ?_⟩
      · simp [natDecGo, hn]
      · intro c hc
        simp at hc
        subst hc
        exact digitChar_isDigit hn
      · intro a
        simp [digitsValFrom, digitChar_toNat hn]
        omega
    · have hdiv : n / 10 < f := by
        have h1 : n / 10 < n := Nat.div_lt_self (by omega) (by omega)
        omega
      obtain ⟨ds', heq, hne, hdig, hval⟩ := ih (n / 10) (Nat.digitChar (n % 10) :: acc) hdiv
      refine ⟨ds' ++ [Nat.digitChar (n % 10)], ?_, by simp, ?_, ?_⟩
      · simp [natDecGo, hn, heq]
      · intro c hc
        simp at hc
        rcases hc with hc | hc
        · exact hdig c hc
        · subst hc
          exact digitChar_isDigit (Nat.mod_lt _ (by omega))
      · intro a
        rw [digitsValFrom_append, hval a]
        have hm : (Nat.digitChar (n % 10)).toNat = 48 + n % 10 :=
          digitChar_toNat (show n % 10 < 10 by omega)
        simp only [digitsValFrom, List.foldl_cons, List.foldl_nil, hm,
          List.length_append, List.length_cons, List.length_nil, Nat.add_sub_cancel_left,
          Nat.zero_add]
        have hp : a * (10 : Nat) ^ (ds'.length + 1) = a * 10 ^ ds'.length * 10 := by
          rw [pow_succ]; ring
        rw [hp]
        generalize a * (10 : Nat) ^ ds'.length = B
        omega

theorem natDecimal_spec (n : Nat) :
    natDecimal n ≠ [] ∧ (∀ c ∈ natDecimal n, isDigit c = true) ∧
      digitsVal (natDecimal n) = n := by
  obtain ⟨ds, heq, hne, hdig, hval⟩ := natDecGo_spec (n + 1) n [] (by omega)
  have h : natDecimal n = ds := by simpa [natDecimal] using heq
  refine ⟨by rw [h]; exact hne, by rw [h]; exact hdig, ?_⟩
  rw [h, digitsVal_eq_from, hval 0]
  simp

theorem isDigit_not_space {c : Char} (h : isDigit c = true) : isPySpace c = false := by
  simp [isDigit, decide_eq_true_eq] at h
  simp [isPySpace, decide_eq_true_eq]
  omega

theorem isDigit_ne_minus {c : Char} (h : isDigit c = true) : c ≠ '-' := by
  intro hc; subst hc; simp [isDigit] at h

theorem isDigit_ne_plus {c : Char} (h : isDigit c = true) : c ≠ '+' := by
  intro hc; subst hc; simp [isDigit] at h

theorem isDigit_ne_colon {c : Char} (h : isDigit c = true) : c ≠ ':' := by
  intro hc; subst hc; simp [isDigit] at h

theorem dropWhile_head_false {p : Char → Bool} {c : Char} {l : List Char}
    (h : p c = false) : (c :: l).dropWhile p = c :: l := by
  simp [List.dropWhile, h]

/-- An all-digit nonempty string survives `pyStrip` unchanged. -/
theorem pyStrip_digits {l : List Char} (hd : ∀ c ∈ l, isDigit c = true) :
    pyStrip l = l := by
  unfold pyStrip
  cases hl : l with
  | nil => simp
  | cons c t =>
    have hc : isPySpace c = false := isDigit_not_space (hd c (by rw [hl]; simp))
    rw [← hl, show l.dropWhile isPySpace = l by rw [hl]; exact dropWhile_head_false hc]
    cases hr : l.reverse with
    | nil => simp [List.reverse_eq_nil_iff.mp hr]
    | cons c' t' =>
      have hc' : c' ∈ l := by
        rw [← List.mem_reverse, hr]; simp
      rw [dropWhile_head_false (isDigit_not_space (hd c' hc')), ← hr]
      simp

/-- `int(str(n)) = n`: `pyInt` inverts `natDecimal`. -/
theorem pyInt_natDecimal (n : Nat) : pyInt (natDecimal n) = some (n : Int) := by
  obtain ⟨hne, hdig, hval⟩ := natDecimal_spec n
  rw [pyInt, pyStrip_digits hdig]
  cases hl : natDecimal n with
  | nil => exact absurd hl hne
  | cons c t =>
    have hc : isDigit c = true := hdig c (by rw [hl]; simp)
    have hall : (c :: t).all isDigit = true := by
      rw [List.all_eq_true]
      intro x hx
      exact hdig x (by rw [hl]; exact hx)
    rw [pyIntCore, if_neg (isDigit_ne_minus hc), if_neg (isDigit_ne_plus hc)]
    rw [digitsOnly, if_neg (by simp), if_pos hall]
    rw [← hl, hval]
    simp

/-- `str.partition` on a string built around the first separator occurrence. -/
theorem pyPartition_append {pre rest : List Char} (h : ':' ∉ pre) :
    pyPartition (pre ++ ':' :: rest) ':' = (pre, true, rest) := by
  induction pre with
  | nil => simp [pyPartition]
  | cons x xs ih =>
    have hx : x ≠ ':' := by intro hc; exact h (by rw [hc]; simp)
    have hxs : ':' ∉ xs := fun hc => h (List.mem_cons_of_mem _ hc)
    simp [pyPartition, hx, ih hxs]

/-- If `partition` found a separator, the input decomposes around it. -/
theorem pyPartition_found (s : List Char) (h : (pyPartition s ':').2.1 = true) :
    s = (pyPartition s ':').1 ++ ':' :: (pyPartition s ':').2.2 ∧
      ':' ∉ (pyPartition s ':').1 := by
  induction s with
  | nil => simp [pyPartition] at h
  | cons x xs ih =>
    by_cases hx : x = ':'
    · subst hx; simp [pyPartition]
    · simp only [pyPartition, if_neg hx] at h ⊢
      obtain ⟨h1, h2⟩ := ih h
      constructor
      · conv_lhs => rw [h1]
        simp
      · intro hmem
        rcases List.mem_cons.mp hmem with hc | hc
        · exact hx hc.symm
        · exact h2 hc

/-- Computation of `readNetstring` once the separator was found and the prefix
parsed. -/
theorem readNetstring_eq_of (s : List Char) (n : Int)
    (hfound : (pyPartition s ':').2.1 = true)
    (hint : pyInt (pyPartition s ':').1 = some n) :
    readNetstring s =
      if ((pyPartition s ':').2.2.length : Int) = n + 1
      then some (pyPartition s ':').2.2.dropLast else none := by
  rw [readNetstring]
  rw [if_neg (by rw [hfound]; simp), hint]

/-- A well-framed input decodes to its payload, whatever the terminator byte. -/
theorem readNetstring_wellFramed {pre p : List Char} (t : Char)
    (hpre : ':' ∉ pre) (hint : pyInt pre = some (p.length : Int)) :
    readNetstring (pre ++ ':' :: (p ++ [t])) = some p := by
  rw [readNetstring]
  rw [pyPartition_append hpre]
  simp only [hint]
  rw [if_neg (by simp), if_pos (by simp)]
  simp

/-! ## Claims C5, C10, C9: netstring decoding -/

/-- Claim C5: netstring framing round-trips — for every byte payload `p`,
decoding the netstring encoding of `p` (which is
`"<decimal length of p>:" + p + ","`, consumed in full with nothing left over)
yields exactly the payload `p`. -/
theorem netstring_roundtrip (p : List Char) :
    readNetstring (makeNetstring p) = some p := by
  obtain ⟨hne, hdig, hval⟩ := natDecimal_spec p.length
  have hcolon : ':' ∉ natDecimal p.length := fun hc => isDigit_ne_colon (hdig _ hc) rfl
  rw [makeNetstring]
  exact readNetstring_wellFramed ',' hcolon (pyInt_natDecimal p.length)

/-- Claim C10: the decoder never inspects the terminator byte's value — for
every payload `p` and every single character `t`, decoding
`str(len(p)) + ":" + p + t` succeeds and returns `p`, even when `t` is not the
`','` the wire format prescribes; only the terminator's position is checked. -/
theorem decoder_ignores_terminator (p : List Char) (t : Char) :
    readNetstring (natDecimal p.length ++ ':' :: (p ++ [t])) = some p := by
  obtain ⟨hne, hdig, hval⟩ := natDecimal_spec p.length
  have hcolon : ':' ∉ natDecimal p.length := fun hc => isDigit_ne_colon (hdig _ hc) rfl
  exact readNetstring_wellFramed t hcolon (pyInt_natDecimal p.length)

/-- Claim C9, counterexample: the input `"-1:"` has no decomposition
`prefix ++ ":" ++ payload ++ terminator` with `int(prefix)` equal to the
payload length — its declared length `-1` matches no actual terminator
position — yet `readNetstring` returns the empty payload instead of raising,
because `len("") == int("-1") + 1`. -/
theorem readNetstring_minus_one_cex :
    readNetstring ['-', '1', ':'] = some [] ∧
      ¬ ∃ (pre payload : List Char) (t : Char),
          ('-' :: '1' :: [':'] : List Char) = pre ++ ':' :: (payload ++ [t]) ∧
          ':' ∉ pre ∧ pyInt pre = some ((payload.length : Int)) := by
  refine ⟨by decide, ?_⟩
  rintro ⟨pre, payload, t, heq, hpre, hint⟩
  cases pre with
  | nil => simp at heq
  | cons a pre' =>
    cases pre' with
    | nil =>
      simp at heq
    | cons b pre'' =>
      have hlen := congrArg List.length heq
      simp [List.length_append] at hlen
      omega

/-- Claim C9, amended: decoding succeeds exactly on inputs of the form
`prefix ++ ":" ++ payload ++ terminator-byte` whose prefix `int()`-parses to
the payload length, plus the degenerate inputs `prefix ++ ":"` whose prefix
parses to `-1` (accepted with empty payload); on every other input — in
particular whenever the length prefix is non-numeric or the declared length
matches no actual terminator position, the degenerate `-1` case aside — the
decoder raises. -/
theorem readNetstring_characterization (s p : List Char) :
    readNetstring s = some p ↔
      ((∃ (pre : List Char) (t : Char),
          s = pre ++ ':' :: (p ++ [t]) ∧ ':' ∉ pre ∧
          pyInt pre = some ((p.length : Int))) ∨
       (∃ pre : List Char,
          s = pre ++ [':'] ∧ ':' ∉ pre ∧ pyInt pre = some (-1) ∧ p = [])) := by
  constructor
  · intro h
    cases hfound : (pyPartition s ':').2.1 with
    | false =>
      rw [readNetstring, if_pos (by rw [hfound])] at h
      exact absurd h (by simp)
    | true =>
      obtain ⟨hdecomp, hnotin⟩ := pyPartition_found s hfound
      cases hint : pyInt (pyPartition s ':').1 with
      | none =>
        rw [readNetstring, if_neg (by rw [hfound]; simp), hint] at h
        exact absurd h (by simp)
      | some n =>
        rw [readNetstring_eq_of s n hfound hint] at h
        by_cases hlen : (((pyPartition s ':').2.2.length : Int)) = n + 1
        · rw [if_pos hlen] at h
          have hp : p = (pyPartition s ':').2.2.dropLast := (Option.some.inj h).symm
          rcases Int.le_or_lt 0 n with hpos | hneg
          · left
            have hrne : (pyPartition s ':').2.2 ≠ [] := by
              intro hnil
              rw [hnil] at hlen
              simp at hlen
              omega
            refine ⟨(pyPartition s ':').1, (pyPartition s ':').2.2.getLast hrne, ?_,
              hnotin, ?_⟩
            · have hpl : p ++ [(pyPartition s ':').2.2.getLast hrne] =
                  (pyPartition s ':').2.2 := by
                rw [hp]
                exact List.dropLast_append_getLast hrne
              rw [hpl]
              exact hdecomp
            · rw [hint]
              congr 1
              have hlp : p.length = (pyPartition s ':').2.2.length - 1 := by
                rw [hp, List.length_dropLast]
              have hge : 1 ≤ (pyPartition s ':').2.2.length := by
                cases hl : (pyPartition s ':').2.2 with
                | nil => exact absurd hl hrne
                | cons _ _ => simp [hl]
              rw [hlp]
              omega
          · right
            have hn1 : n = -1 := by omega
            have hr0 : (pyPartition s ':').2.2.length = 0 := by
              rw [hn1] at hlen
              omega
            have hrnil : (pyPartition s ':').2.2 = [] := List.length_eq_zero.mp hr0
            refine ⟨(pyPartition s ':').1, ?_, hnotin, by rw [hint, hn1], ?_⟩
            · conv_lhs => rw [hdecomp]
              rw [hrnil]
            · rw [hp, hrnil]
              simp
        · rw [if_neg hlen] at h
          exact absurd h (by simp)
  · rintro (⟨pre, t, rfl, hnotin, hint⟩ | ⟨pre, rfl, hnotin, hint, rfl⟩)
    · exact readNetstring_wellFramed t hnotin hint
    · have hpart : pyPartition (pre ++ [':']) ':' = (pre, true, []) := by
        have h := @pyPartition_append pre [] hnotin
        simpa using h
      rw [readNetstring]
      rw [hpart]
      simp [hint]

/-! ## Claims C6, C7, C8: server dispatch output -/

/-- Claim C6: with the handler `add(x, y) = x + y` registered under namespace
`foo`, a request for method `foo.add` with id `"X"` and params `[1, 2]` makes
the server write exactly the bytes
`42:{"jsonrpc": "2.0", "result": 3, "id": "X"},` and nothing else. -/
theorem foo_add_request_reply :
    sessionOutput fooRegistry
        (.request (.jstr ['X']) (("foo.add").toList) [.jnum 1, .jnum 2]) =
      expectedAddReply.toList := by
  decide

/-- Claim C7: a request with id `"X"` for the unregistered method `add` (no
namespace) makes the server write exactly the Method-not-found error reply
`87:{"jsonrpc": "2.0", "id": "X", "error": {"message": "Method not found", "code": -32601}},`
with code -32601. -/
theorem unknown_method_reply :
    sessionOutput fooRegistry
        (.request (.jstr ['X']) (("add").toList) [.jnum 1, .jnum 2]) =
      expectedMethodNotFoundReply.toList := by
  decide

/-- A request is always answered: dispatch never returns `none` for a request. -/
theorem dispatch_request_isSome (reg : Registry) (rid : JVal) (m : List Char)
    (ps : List JVal) : (dispatch reg (.request rid m ps)).isSome = true := by
  rw [dispatch]
  cases hl : lookupHandler m reg with
  | none => simp
  | some h => cases hv : h ps <;> simp [hv]

/-- Claim C8: for every notification (an envelope without an id), dispatch
returns `none` and the server session writes zero bytes in reply, while the
same invocation as a request would have produced a nonempty reply. -/
theorem notification_writes_nothing (reg : Registry) (m : List Char)
    (ps : List JVal) (rid : JVal) :
    dispatch reg (.notification m ps) = none ∧
      sessionOutput reg (.notification m ps) = [] ∧
      sessionOutput reg (.request rid m ps) ≠ [] := by
  refine ⟨rfl, rfl, ?_⟩
  rw [sessionOutput]
  cases hd : dispatch reg (.request rid m ps) with
  | none =>
    have := dispatch_request_isSome reg rid m ps
    rw [hd] at this
    simp at this
  | some rep =>
    simp [makeNetstring]

/-! ## List indexing helpers -/

theorem getD_set_self {α : Type} (l : List α) (i : Nat) (x d : α) (h : i < l.length) :
    (l.set i x).getD i d = x := by
  induction l generalizing i with
  | nil => simp at h
  | cons a t ih =>
    cases i with
    | zero => simp [List.set]
    | succ j =>
      simp only [List.set, List.getD_cons_succ]
      exact ih j (by simpa using h)

theorem getD_set_other {α : Type} (l : List α) (i j : Nat) (x d : α) (h : i ≠ j) :
    (l.set i x).getD j d = l.getD j d := by
  induction l generalizing i j with
  | nil => simp [List.set]
  | cons a t ih =>
    cases i with
    | zero =>
      cases j with
      | zero => exact absurd rfl h
      | succ j' => simp [List.set]
    | succ i' =>
      cases j with
      | zero => simp [List.set]
      | succ j' =>
        simp only [List.set, List.getD_cons_succ]
        exact ih i' j' (fun e => h (congrArg Nat.succ e))

theorem failAll_length (ws : List Nat) (hs : List Outcome) :
    (failAll hs ws).length = hs.length := by
  induction ws generalizing hs with
  | nil => rfl
  | cons w r ih =>
    show (failAll (hs.set w .connError) r).length = hs.length
    rw [ih]
    exact List.length_set hs w .connError

theorem failAll_getD_of_not_mem {ws : List Nat} {h : Nat} (hnm : h ∉ ws)
    (hs : List Outcome) (d : Outcome) :
    (failAll hs ws).getD h d = hs.getD h d := by
  induction ws generalizing hs with
  | nil => rfl
  | cons w r ih =>
    simp only [List.mem_cons] at hnm
    push_neg at hnm
    show (failAll (hs.set w .connError) r).getD h d = hs.getD h d
    rw [ih hnm.2]
    exact getD_set_other hs w h _ _ (fun e => hnm.1 e.symm)

theorem failAll_getD_of_mem {ws : List Nat} {h : Nat} (hm : h ∈ ws) :
    ∀ (hs : List Outcome) (d : Outcome), h < hs.length →
      (failAll hs ws).getD h d = .connError := by
  induction ws with
  | nil => simp at hm
  | cons w r ih =>
    intro hs d hlt
    show (failAll (hs.set w .connError) r).getD h d = .connError
    by_cases hr : h ∈ r
    · exact ih hr _ _ (by rw [List.length_set]; exact hlt)
    · have hw : h = w := by
        rcases List.mem_cons.mp hm with e | e
        · exact e
        · exact absurd e hr
      subst hw
      rw [failAll_getD_of_not_mem hr]
      exact getD_set_self _ _ _ _ hlt

/-! ## Client manager: id-counter bookkeeping (claim C2) -/

theorem connectAndSend_nextId (s : Client) (h : Nat) (f : Frame) (ep : EndpointMode) :
    (connectAndSend s h f ep).nextId = s.nextId := by
  cases hc : s.conn <;> cases ep <;> simp [connectAndSend, hc, sendOn]

theorem connectAndSend_callIds (s : Client) (h : Nat) (f : Frame) (ep : EndpointMode) :
    (connectAndSend s h f ep).callIds = s.callIds := by
  cases hc : s.conn <;> cases ep <;> simp [connectAndSend, hc, sendOn]

theorem cancelPending_nextId (s : Client) (h : Nat) :
    (cancelPending s h).nextId = s.nextId := by
  rw [cancelPending]
  split <;> rfl

theorem cancelPending_callIds (s : Client) (h : Nat) :
    (cancelPending s h).callIds = s.callIds := by
  rw [cancelPending]
  split <;> rfl

theorem step_nextId (s : Client) (e : Ev) :
    (step s e).nextId = s.nextId + (if isCall e then 1 else 0) := by
  cases e with
  | callRemote m ps ep => simp [step, isCall, connectAndSend_nextId]
  | notifyRemote m ps ep => simp [step, isCall, connectAndSend_nextId]
  | attemptSucceeded => cases hc : s.conn <;> simp [step, hc, isCall]
  | attemptFailed => cases hc : s.conn <;> simp [step, hc, isCall]
  | connectionLost => cases hc : s.conn <;> simp [step, hc, isCall]
  | cancel h =>
    cases hc : s.conn <;>
      simp [step, hc, isCall, cancelPending_nextId] <;> split <;>
      simp [cancelPending_nextId]
  | response rid =>
    cases hf : s.pendingCalls.find? (fun e => e.1 == rid) <;>
      simp [step, hf, isCall]

theorem step_callIds (s : Client) (e : Ev) :
    (step s e).callIds = s.callIds ++ (if isCall e then [s.nextId] else []) := by
  cases e with
  | callRemote m ps ep => simp [step, isCall, connectAndSend_callIds]
  | notifyRemote m ps ep => simp [step, isCall, connectAndSend_callIds]
  | attemptSucceeded => cases hc : s.conn <;> simp [step, hc, isCall]
  | attemptFailed => cases hc : s.conn <;> simp [step, hc, isCall]
  | connectionLost => cases hc : s.conn <;> simp [step, hc, isCall]
  | cancel h =>
    cases hc : s.conn <;>
      simp [step, hc, isCall, cancelPending_callIds] <;> split <;>
      simp [cancelPending_callIds]
  | response rid =>
    cases hf : s.pendingCalls.find? (fun e => e.1 == rid) <;>
      simp [step, hf, isCall]

theorem run_ids (evs : List Ev) :
    ∀ s : Client,
      (List.foldl step s evs).nextId = s.nextId + countCalls evs ∧
      (List.foldl step s evs).callIds =
        s.callIds ++ List.range' s.nextId (countCalls evs) := by
  induction evs with
  | nil => intro s; simp [countCalls]
  | cons e r ih =>
    intro s
    obtain ⟨ih1, ih2⟩ := ih (step s e)
    have h1 := step_nextId s e
    have h2 := step_callIds s e
    have hcc : countCalls (e :: r) = countCalls r + (if isCall e then 1 else 0) := by
      simp [countCalls, List.countP_cons]
    constructor
    · rw [List.foldl_cons, ih1, h1, hcc]
      omega
    · rw [List.foldl_cons, ih2, h2, h1, hcc]
      by_cases hc : isCall e = true
      · simp only [hc, if_pos]
        rw [List.append_assoc]
        congr 1
      · simp [hc]

/-- Claim C2: the client's id counter is a single monotonically increasing
integer starting at 1 — over every event trace, the calls are assigned the
consecutive ids `1, 2, …` in issue order (the first call gets id 1, each
subsequent call exactly one more), notifications consume no id, and no event
(including connection loss and reconnection) ever resets the counter. -/
theorem client_id_counter (evs : List Ev) :
    (runClient evs).callIds = List.range' 1 (countCalls evs) ∧
      (runClient evs).nextId = 1 + countCalls evs := by
  obtain ⟨h1, h2⟩ := run_ids evs initClient
  rw [runClient]
  constructor
  · rw [h2]
    simp [initClient]
  · rw [h1]
    simp [initClient]

/-! ## Claim C1: shared connect attempt and failure reporting -/

/-- Issuing further calls or notifications while an attempt is pending attaches
them to the one shared attempt: no new attempt starts, no report is emitted,
each new handle is pending, and the waiter list grows by the new handle
indices. -/
theorem pending_issue_burst :
    ∀ (evs : List Ev), evs.all isPendingIssue = true →
      ∀ (s : Client) (ws : List Nat), s.conn = .connecting ws →
        (List.foldl step s evs).attempts = s.attempts ∧
        (List.foldl step s evs).reports = s.reports ∧
        (List.foldl step s evs).handles
            = s.handles ++ List.replicate evs.length Outcome.pending ∧
        (List.foldl step s evs).conn
            = .connecting (ws ++ List.range' s.handles.length evs.length) := by
  intro evs
  induction evs with
  | nil => intro _ s ws hconn; simp [hconn]
  | cons e rest ih =>
    intro hall s ws hconn
    rw [List.all_cons, Bool.and_eq_true] at hall
    obtain ⟨he, hrest⟩ := hall
    rw [List.foldl_cons]
    have hfacts : (step s e).conn = .connecting (ws ++ [s.handles.length]) ∧
        (step s e).handles = s.handles ++ [Outcome.pending] ∧
        (step s e).attempts = s.attempts ∧
        (step s e).reports = s.reports := by
      cases e with
      | callRemote m ps ep =>
        have hep : ep = .stayPending := by
          simpa [isPendingIssue] using he
        subst hep
        simp [step, connectAndSend, hconn]
      | notifyRemote m ps ep =>
        have hep : ep = .stayPending := by
          simpa [isPendingIssue] using he
        subst hep
        simp [step, connectAndSend, hconn]
      | attemptSucceeded => simp [isPendingIssue] at he
      | attemptFailed => simp [isPendingIssue] at he
      | connectionLost => simp [isPendingIssue] at he
      | cancel h => simp [isPendingIssue] at he
      | response rid => simp [isPendingIssue] at he
    obtain ⟨hc1, hh1, ha1, hr1⟩ := hfacts
    obtain ⟨ha, hr, hh, hcn⟩ := ih hrest (step s e) (ws ++ [s.handles.length]) hc1
    refine ⟨by rw [ha, ha1], by rw [hr, hr1], ?_, ?_⟩
    · rw [hh, hh1]
      simp [List.replicate_succ]
    · rw [hcn, hh1]
      simp [List.range'_succ, List.append_assoc]

/-- Claim C1, amended: any `n ≥ 1` callers — calls and notifications in any
mix — issued while no connection exists all attach to exactly one shared
connect attempt (`attempts = 1`); when that attempt fails, every one of the
`n` handles fails independently with the connection error, but exactly
**one** connection-error report is emitted to the observability sink —
reporting is per failed connect attempt, not per waiter (per-waiter reports
arise only when the attempts are separate, as with synchronous failures). -/
theorem shared_attempt_one_report (evs : List Ev)
    (hiss : evs.all isPendingIssue = true) (hn : 1 ≤ evs.length) :
    (runClient (evs ++ [Ev.attemptFailed])).attempts = 1 ∧
    (runClient (evs ++ [Ev.attemptFailed])).reports = 1 ∧
    (runClient (evs ++ [Ev.attemptFailed])).handles.length = evs.length ∧
    ∀ i, i < evs.length →
      (runClient (evs ++ [Ev.attemptFailed])).handles.getD i .pending
        = .connError := by
  cases evs with
  | nil => simp at hn
  | cons e rest =>
    rw [List.all_cons, Bool.and_eq_true] at hiss
    obtain ⟨he, hrest⟩ := hiss
    have hfacts : (step initClient e).conn = .connecting [0] ∧
        (step initClient e).handles = [Outcome.pending] ∧
        (step initClient e).attempts = 1 ∧
        (step initClient e).reports = 0 := by
      cases e with
      | callRemote m ps ep =>
        have hep : ep = .stayPending := by
          simpa [isPendingIssue] using he
        subst hep
        exact ⟨rfl, rfl, rfl, rfl⟩
      | notifyRemote m ps ep =>
        have hep : ep = .stayPending := by
          simpa [isPendingIssue] using he
        subst hep
        exact ⟨rfl, rfl, rfl, rfl⟩
      | attemptSucceeded => simp [isPendingIssue] at he
      | attemptFailed => simp [isPendingIssue] at he
      | connectionLost => simp [isPendingIssue] at he
      | cancel h => simp [isPendingIssue] at he
      | response rid => simp [isPendingIssue] at he
    obtain ⟨hc1, hh1, ha1, hr1⟩ := hfacts
    rw [runClient]
    simp only [List.cons_append, List.foldl_cons, List.foldl_append, List.foldl_nil]
    obtain ⟨ha, hr, hh, hcn⟩ := pending_issue_burst rest hrest (step initClient e) [0] hc1
    set T := List.foldl step (step initClient e) rest with hT
    have hcW : T.conn = .connecting (List.range' 0 (rest.length + 1)) := by
      rw [hcn, hh1]
      congr 1
    have hstepF : step T Ev.attemptFailed =
        { T with conn := .disconnected, queued := [],
                 handles := failAll T.handles (List.range' 0 (rest.length + 1)),
                 pendingCalls := T.pendingCalls.filter
                   (fun e => !(decide (e.2 ∈ List.range' 0 (rest.length + 1)))),
                 reports := T.reports + 1 } := by
      simp [step, hcW]
    rw [hstepF]
    have hhl : T.handles.length = rest.length + 1 := by
      rw [hh, hh1]
      simp
    refine ⟨by rw [ha, ha1], by rw [hr, hr1], ?_, ?_⟩
    · rw [failAll_length, hhl]
      simp
    · intro i hi
      simp only [List.length_cons] at hi
      refine failAll_getD_of_mem ?_ _ _ (by rw [hhl]; exact hi)
      rw [List.mem_range'_1]
      omega

/-- Claim C1, counterexample: two notifications issued while disconnected do
attach to one shared pending attempt and both handles fail with the connection
error when it fails, but only **one** connection-error report is emitted — not
the two the claim requires (the tests assert exactly one logged error here). -/
theorem shared_attempt_failure_cex :
    (runClient [Ev.notifyRemote spamName [] .stayPending,
        Ev.notifyRemote spamName [] .stayPending, Ev.attemptFailed]).attempts = 1 ∧
    (runClient [Ev.notifyRemote spamName [] .stayPending,
        Ev.notifyRemote spamName [] .stayPending, Ev.attemptFailed]).handles =
      [.connError, .connError] ∧
    (runClient [Ev.notifyRemote spamName [] .stayPending,
        Ev.notifyRemote spamName [] .stayPending, Ev.attemptFailed]).reports = 1 ∧
    (runClient [Ev.notifyRemote spamName [] .stayPending,
        Ev.notifyRemote spamName [] .stayPending, Ev.attemptFailed]).reports ≠ 2 := by
  decide

/-- Witness for `shared_attempt_one_report` on a mixed trace: one call and one
notification issued concurrently against the same pending attempt. -/
theorem shared_attempt_one_report_witness :
    (([Ev.callRemote spamName [] .stayPending,
       Ev.notifyRemote spamName [] .stayPending] : List Ev).all isPendingIssue = true ∧
     1 ≤ ([Ev.callRemote spamName [] .stayPending,
           Ev.notifyRemote spamName [] .stayPending] : List Ev).length) ∧
    ((runClient ([Ev.callRemote spamName [] .stayPending,
        Ev.notifyRemote spamName [] .stayPending] ++ [Ev.attemptFailed])).attempts = 1 ∧
     (runClient ([Ev.callRemote spamName [] .stayPending,
        Ev.notifyRemote spamName [] .stayPending] ++ [Ev.attemptFailed])).reports = 1 ∧
     (runClient ([Ev.callRemote spamName [] .stayPending,
        Ev.notifyRemote spamName [] .stayPending] ++ [Ev.attemptFailed])).handles.length
        = ([Ev.callRemote spamName [] .stayPending,
           Ev.notifyRemote spamName [] .stayPending] : List Ev).length ∧
     ∀ i, i < ([Ev.callRemote spamName [] .stayPending,
               Ev.notifyRemote spamName [] .stayPending] : List Ev).length →
       (runClient ([Ev.callRemote spamName [] .stayPending,
          Ev.notifyRemote spamName [] .stayPending] ++ [Ev.attemptFailed])).handles.getD
           i .pending = .connError) :=
  ⟨⟨by decide, by decide⟩,
   shared_attempt_one_report
     [Ev.callRemote spamName [] .stayPending, Ev.notifyRemote spamName [] .stayPending]
     (by decide) (by decide)⟩

/-! ## Claim C3: lazy reconnection -/

/-- Claim C3: after a connection loss the manager transitions to disconnected
without opening a new connection, and no event other than a call/notify opens
one (reconnection is lazy, not eager); the next call/notify (here over a
synchronously succeeding endpoint) opens exactly one new connection — a fresh
generation, distinct from the lost one — and writes its frame over that new
connection. -/
theorem lazy_reconnection (s : Client) (g : Nat) (e : Ev) (m : List Char)
    (ps : List Int) (hc : s.conn = .connected g) (hg : g < s.gens)
    (he : isIssue e = false) :
    ((step s .connectionLost).attempts = s.attempts ∧
     (step s .connectionLost).conn = .disconnected) ∧
    (step (step s .connectionLost) e).attempts = s.attempts ∧
    ((step (step s .connectionLost) (.notifyRemote m ps .succeedNow)).attempts
        = s.attempts + 1 ∧
     (step (step s .connectionLost) (.notifyRemote m ps .succeedNow)).conn
        = .connected s.gens ∧
     s.gens ≠ g ∧
     (step (step s .connectionLost) (.notifyRemote m ps .succeedNow)).writes
        = s.writes ++ [(s.gens, .notification m ps)]) ∧
    ((step (step s .connectionLost) (.callRemote m ps .succeedNow)).attempts
        = s.attempts + 1 ∧
     (step (step s .connectionLost) (.callRemote m ps .succeedNow)).writes
        = s.writes ++ [(s.gens, .request s.nextId m ps)]) := by
  have hlost : step s .connectionLost =
      { s with conn := .disconnected,
               handles := failAll s.handles (s.pendingCalls.map (fun e => e.2)),
               pendingCalls := [],
               reports := s.reports + 1 + s.pendingCalls.length } := by
    simp [step, hc]
  refine ⟨⟨by rw [hlost], by rw [hlost]⟩, ?_, ⟨?_, ?_, by omega, ?_⟩, ?_, ?_⟩
  · rw [hlost]
    cases e with
    | callRemote m' ps' ep => simp [isIssue] at he
    | notifyRemote m' ps' ep => simp [isIssue] at he
    | attemptSucceeded => rfl
    | attemptFailed => rfl
    | connectionLost => rfl
    | cancel h => simp [step, cancelPending]
    | response rid => rfl
  · rw [hlost]
    simp [step, connectAndSend, sendOn]
  · rw [hlost]
    simp [step, connectAndSend, sendOn]
  · rw [hlost]
    simp [step, connectAndSend, sendOn]
  · rw [hlost]
    simp [step, connectAndSend, sendOn]
  · rw [hlost]
    simp [step, connectAndSend, sendOn]

/-- Witness for `lazy_reconnection` at the state reached by one successful
notification, with the non-issue event `attemptFailed`. -/
theorem lazy_reconnection_witness :
    (reconState.conn = .connected 0 ∧ 0 < reconState.gens ∧
      isIssue Ev.attemptFailed = false) ∧
    (((step reconState .connectionLost).attempts = reconState.attempts ∧
      (step reconState .connectionLost).conn = .disconnected) ∧
     (step (step reconState .connectionLost) Ev.attemptFailed).attempts
        = reconState.attempts ∧
     ((step (step reconState .connectionLost)
          (.notifyRemote spamName [] .succeedNow)).attempts
        = reconState.attempts + 1 ∧
      (step (step reconState .connectionLost)
          (.notifyRemote spamName [] .succeedNow)).conn
        = .connected reconState.gens ∧
      reconState.gens ≠ 0 ∧
      (step (step reconState .connectionLost)
          (.notifyRemote spamName [] .succeedNow)).writes
        = reconState.writes ++ [(reconState.gens, .notification spamName [])]) ∧
     ((step (step reconState .connectionLost)
          (.callRemote spamName [] .succeedNow)).attempts
        = reconState.attempts + 1 ∧
      (step (step reconState .connectionLost)
          (.callRemote spamName [] .succeedNow)).writes
        = reconState.writes ++ [(reconState.gens, .request reconState.nextId spamName [])])) :=
  ⟨⟨by decide, by decide, by decide⟩,
   lazy_reconnection reconState 0 Ev.attemptFailed spamName [] (by decide) (by decide)
     (by decide)⟩

/-! ## Claim C4: cancellation while queued on a pending connect attempt -/

/-- Claim C4: cancelling a call or notification that is still queued on a
pending connect attempt fails its handle with a cancellation error; and when
the canceller is the sole waiter, the cancellation is propagated to the
underlying connect operation itself (the attempt is cancelled and the manager
returns to disconnected), not merely marked on the handle. -/
theorem cancel_during_connect (s : Client) (h : Nat) (ws : List Nat)
    (hc : s.conn = .connecting ws) (hm : h ∈ ws) (hh : h < s.handles.length) :
    (step s (.cancel h)).handles.getD h .pending = .cancelled ∧
    (ws = [h] → (step s (.cancel h)).attemptCancelled = true ∧
      (step s (.cancel h)).conn = .disconnected) := by
  have hstep : step s (.cancel h) =
      { s with handles := s.handles.set h .cancelled,
               queued := s.queued.filter (fun e => e.1 != h),
               pendingCalls := s.pendingCalls.filter (fun e => e.2 != h),
               cancelReports := s.cancelReports + 1,
               conn := if (ws.filter (fun w => w != h)).isEmpty then .disconnected
                       else .connecting (ws.filter (fun w => w != h)),
               attemptCancelled :=
                 s.attemptCancelled || (ws.filter (fun w => w != h)).isEmpty } := by
    simp [step, hc, hm]
  rw [hstep]
  refine ⟨getD_set_self _ _ _ _ hh, ?_⟩
  rintro rfl
  have hf : ([h].filter (fun w => w != h)) = ([] : List Nat) := by simp
  constructor
  · simp [hf]
  · simp [hf]

/-- Witness for `cancel_during_connect` at the state reached by one call queued
on a pending attempt, as its sole waiter. -/
theorem cancel_during_connect_witness :
    (cancelState.conn = .connecting [0] ∧ 0 ∈ ([0] : List Nat) ∧
      0 < cancelState.handles.length) ∧
    ((step cancelState (.cancel 0)).handles.getD 0 .pending = .cancelled ∧
     (([0] : List Nat) = [0] → (step cancelState (.cancel 0)).attemptCancelled = true ∧
       (step cancelState (.cancel 0)).conn = .disconnected)) :=
  ⟨⟨by decide, by decide, by decide⟩,
   cancel_during_connect cancelState 0 [0] (by decide) (by decide) (by decide)⟩

end Txjason
